import Mathlib

/-!
Verification of the frame-quality gate and auto-capture decision engine of the
`mrz-camera` repository (variant sources: `src/components/PassportAutoCapture.tsx`
and the unnamed variants `part_001`, `part_002`).

The TypeScript numbers are modelled as exact rationals (`ℚ`); `Uint8ClampedArray`
luma samples are naturals.  `Math.round` rounds half toward positive infinity,
modelled by `jsRound`.  Fallible steps return `Option`.
-/

namespace MrzCam

/-- JavaScript `Math.round`: rounds half-way cases toward positive infinity. -/
def jsRound (q : ℚ) : ℤ := ⌊q + 1/2⌋

/-- The guide rectangle in view coordinates together with the container size, as
assembled by `computeRoiRect` from the two `getBoundingClientRect` calls. -/
structure RoiInView where
  x : ℚ
  y : ℚ
  w : ℚ
  h : ℚ
  containerW : ℚ
  containerH : ℚ
  deriving DecidableEq

/-- The integer pixel rectangle in source-frame coordinates returned by
`guideToVideoRect`. -/
structure PixelRegion where
  x : ℤ
  y : ℤ
  w : ℤ
  h : ℤ
  deriving DecidableEq

/-- The object-contain scale `Math.min(containerW / vw, containerH / vh)`. -/
def containScale (roi : RoiInView) (vw vh : ℕ) : ℚ :=
  min (roi.containerW / vw) (roi.containerH / vh)

/-- Letterbox offset `offsetX = (containerW - drawnW) / 2` with `drawnW = vw * scale`. -/
def offsetX (roi : RoiInView) (vw vh : ℕ) : ℚ :=
  (roi.containerW - vw * containScale roi vw vh) / 2

/-- Letterbox offset `offsetY = (containerH - drawnH) / 2` with `drawnH = vh * scale`. -/
def offsetY (roi : RoiInView) (vw vh : ℕ) : ℚ :=
  (roi.containerH - vh * containScale roi vw vh) / 2

/-- The local `x = Math.max(0, Math.min(vw, (roiInView.x - offsetX) / scale))`. -/
def clampX (roi : RoiInView) (vw vh : ℕ) : ℚ :=
  max 0 (min vw ((roi.x - offsetX roi vw vh) / containScale roi vw vh))

/-- The local `y = Math.max(0, Math.min(vh, (roiInView.y - offsetY) / scale))`. -/
def clampY (roi : RoiInView) (vw vh : ℕ) : ℚ :=
  max 0 (min vh ((roi.y - offsetY roi vw vh) / containScale roi vw vh))

/-- The local `w = Math.max(1, Math.min(vw - x, roiInView.w / scale))`. -/
def clampW (roi : RoiInView) (vw vh : ℕ) : ℚ :=
  max 1 (min (vw - clampX roi vw vh) (roi.w / containScale roi vw vh))

/-- The local `h = Math.max(1, Math.min(vh - y, roiInView.h / scale))`. -/
def clampH (roi : RoiInView) (vw vh : ℕ) : ℚ :=
  max 1 (min (vh - clampY roi vw vh) (roi.h / containScale roi vw vh))

/-- Embedding of `guideToVideoRect` (PassportAutoCapture.tsx lines 107-125):
object-contain mapping of the guide rectangle into native video coordinates,
with clamping, a 1-pixel floor on the size, and `Math.round` on every field.
Returns `none` when `videoWidth` or `videoHeight` is zero (`if (!vw || !vh)`). -/
def guideToVideoRect (roi : RoiInView) (vw vh : ℕ) : Option PixelRegion :=
  if vw = 0 ∨ vh = 0 then none
  else
    some { x := jsRound (clampX roi vw vh), y := jsRound (clampY roi vw vh)
         , w := jsRound (clampW roi vw vh), h := jsRound (clampH roi vw vh) }

lemma jsRound_mono {a b : ℚ} (h : a ≤ b) : jsRound a ≤ jsRound b :=
  Int.floor_le_floor (by linarith)

lemma jsRound_intCast (n : ℤ) : jsRound (n : ℚ) = n := by
  unfold jsRound
  rw [Int.floor_eq_iff]
  constructor
  · norm_num
  · linarith

lemma jsRound_natCast (n : ℕ) : jsRound (n : ℚ) = n := by
  have h := jsRound_intCast (n : ℤ)
  push_cast at h
  exact h

lemma jsRound_zero : jsRound 0 = 0 := by
  have := jsRound_intCast 0
  simpa using this

lemma jsRound_one : jsRound 1 = 1 := by
  have := jsRound_intCast 1
  simpa using this

lemma jsRound_add_le (a b : ℚ) : jsRound a + jsRound b ≤ ⌊a + b + 1⌋ := by
  apply Int.le_floor.mpr
  push_cast
  have ha : (⌊a + 1/2⌋ : ℚ) ≤ a + 1/2 := Int.floor_le _
  have hb : (⌊b + 1/2⌋ : ℚ) ≤ b + 1/2 := Int.floor_le _
  unfold jsRound
  linarith

/-- Bounds for one axis of the clamped rectangle: the rounded position stays in
`[0, n]`, the rounded size is at least `1`, and their sum overshoots `n` by at
most one pixel. -/
lemma axis_bounds (n : ℕ) (t u pos len : ℚ)
    (hpos : pos = max 0 (min (n : ℚ) t))
    (hlen : len = max 1 (min ((n : ℚ) - pos) u)) :
    0 ≤ jsRound pos ∧ jsRound pos ≤ (n : ℤ) ∧ 1 ≤ jsRound len ∧
    jsRound pos + jsRound len ≤ (n : ℤ) + 1 := by
  have hpos0 : 0 ≤ pos := hpos ▸ le_max_left _ _
  have hposn : pos ≤ (n : ℚ) := by
    rw [hpos]
    exact max_le (Nat.cast_nonneg n) (min_le_left _ _)
  have h1 : 0 ≤ jsRound pos := by
    have := jsRound_mono hpos0
    rwa [jsRound_zero] at this
  have h2 : jsRound pos ≤ (n : ℤ) := by
    have := jsRound_mono hposn
    rwa [jsRound_natCast] at this
  have h3 : (1 : ℚ) ≤ len := hlen ▸ le_max_left _ _
  have h3r : 1 ≤ jsRound len := by
    have := jsRound_mono h3
    rwa [jsRound_one] at this
  refine ⟨h1, h2, h3r, ?_⟩
  rcases le_or_lt ((n : ℚ) - pos) 1 with hc | hc
  · have hlen1 : len = 1 := by
      rw [hlen]
      exact max_eq_left (le_trans (min_le_left _ _) hc)
    rw [hlen1, jsRound_one]
    omega
  · have hlenle : len ≤ (n : ℚ) - pos := by
      rw [hlen]
      exact max_le (by linarith) (min_le_left _ _)
    have hadd := jsRound_add_le pos len
    have hfl : ⌊pos + len + 1⌋ ≤ ⌊(n : ℚ) + 1⌋ := Int.floor_le_floor (by linarith)
    have hn1 : ⌊(n : ℚ) + 1⌋ = (n : ℤ) + 1 := by
      have hcast : ((n : ℚ) + 1) = ((n + 1 : ℕ) : ℚ) := by push_cast; ring
      rw [hcast, Int.floor_natCast]
      push_cast; ring
    omega

/-- C2 (counterexample): with a 100x100 source shown in a 100x100 container
(scale 1, no letterbox), a guide rectangle at `x = 100` of width 50 maps to
`{x := 100, y := 0, w := 1, h := 50}`: the clamp puts `x` at the source width
and the 1-pixel floor then forces `w = 1`, so `x + w = 101 > 100` and the
claimed bound `x + w ≤ sourceWidth` fails. -/
theorem guideToVideoRect_right_edge_cex :
    guideToVideoRect
        { x := 100, y := 0, w := 50, h := 50, containerW := 100, containerH := 100 } 100 100
      = some { x := 100, y := 0, w := 1, h := 50 } ∧
    ¬ ((100 : ℤ) + 1 ≤ 100) := by
  constructor
  · norm_num [guideToVideoRect, clampX, clampY, clampW, clampH, offsetX, offsetY,
      containScale, jsRound]
  · decide

/-- C2 (amended): for a container of positive size and source dimensions at
least 1, every region returned by `guideToVideoRect` satisfies `0 ≤ x ≤ vw`,
`0 ≤ y ≤ vh`, `w ≥ 1`, `h ≥ 1`, and the relaxed containment
`x + w ≤ vw + 1`, `y + h ≤ vh + 1` (the 1-pixel floor at the far edge and
half-up rounding can overshoot the source bounds by one pixel). -/
theorem guideToVideoRect_bounds (roi : RoiInView) (vw vh : ℕ) (r : PixelRegion)
    (hvw : 1 ≤ vw) (hvh : 1 ≤ vh)
    (hcW : 0 < roi.containerW) (hcH : 0 < roi.containerH)
    (h : guideToVideoRect roi vw vh = some r) :
    0 ≤ r.x ∧ r.x ≤ (vw : ℤ) ∧ 0 ≤ r.y ∧ r.y ≤ (vh : ℤ) ∧
    1 ≤ r.w ∧ 1 ≤ r.h ∧ r.x + r.w ≤ (vw : ℤ) + 1 ∧ r.y + r.h ≤ (vh : ℤ) + 1 := by
  have hne : ¬ (vw = 0 ∨ vh = 0) := by omega
  rw [guideToVideoRect, if_neg hne, Option.some.injEq] at h
  obtain ⟨hx1, hx2, hx3, hx4⟩ :=
    axis_bounds vw ((roi.x - offsetX roi vw vh) / containScale roi vw vh)
      (roi.w / containScale roi vw vh) (clampX roi vw vh) (clampW roi vw vh)
      (by rw [clampX]) (by rw [clampW, clampX])
  obtain ⟨hy1, hy2, hy3, hy4⟩ :=
    axis_bounds vh ((roi.y - offsetY roi vw vh) / containScale roi vw vh)
      (roi.h / containScale roi vw vh) (clampY roi vw vh) (clampH roi vw vh)
      (by rw [clampY]) (by rw [clampH, clampY])
  subst h
  exact ⟨hx1, hx2, hy1, hy2, hx3, hy3, hx4, hy4⟩

/-- Concrete inputs for the C2 witness: a guide rectangle strictly inside the
drawn video. -/
def roiW2 : RoiInView :=
  { x := 0, y := 0, w := 50, h := 50, containerW := 100, containerH := 100 }

/-- The region `roiW2` maps to. -/
def rgnW2 : PixelRegion := { x := 0, y := 0, w := 50, h := 50 }

theorem guideToVideoRect_bounds_witness :
    0 ≤ rgnW2.x ∧ rgnW2.x ≤ ((100 : ℕ) : ℤ) ∧ 0 ≤ rgnW2.y ∧ rgnW2.y ≤ ((100 : ℕ) : ℤ) ∧
    1 ≤ rgnW2.w ∧ 1 ≤ rgnW2.h ∧
    rgnW2.x + rgnW2.w ≤ ((100 : ℕ) : ℤ) + 1 ∧ rgnW2.y + rgnW2.h ≤ ((100 : ℕ) : ℤ) + 1 :=
  guideToVideoRect_bounds roiW2 100 100 rgnW2 (by norm_num) (by norm_num)
    (by norm_num [roiW2]) (by norm_num [roiW2])
    (by norm_num [roiW2, rgnW2, guideToVideoRect, clampX, clampY, clampW, clampH,
      offsetX, offsetY, containScale, jsRound])

/-- C8: a guide rectangle exactly equal to the scaled, centered video bounds
(position at the letterbox offsets, size the drawn video size) maps back to the
full source rectangle `{0, 0, vw, vh}`. -/
theorem guide_at_video_bounds_maps_to_full (vw vh : ℕ) (cW cH : ℚ)
    (hvw : 1 ≤ vw) (hvh : 1 ≤ vh) (hcW : 0 < cW) (hcH : 0 < cH) :
    guideToVideoRect
      { x := (cW - vw * min (cW / vw) (cH / vh)) / 2
      , y := (cH - vh * min (cW / vw) (cH / vh)) / 2
      , w := vw * min (cW / vw) (cH / vh)
      , h := vh * min (cW / vw) (cH / vh)
      , containerW := cW, containerH := cH } vw vh
      = some { x := 0, y := 0, w := (vw : ℤ), h := (vh : ℤ) } := by
  have hne : ¬ (vw = 0 ∨ vh = 0) := by omega
  have hvwQ : (0 : ℚ) < vw := by exact_mod_cast Nat.pos_of_ne_zero (by omega)
  have hvhQ : (0 : ℚ) < vh := by exact_mod_cast Nat.pos_of_ne_zero (by omega)
  set roi : RoiInView :=
    { x := (cW - vw * min (cW / vw) (cH / vh)) / 2
    , y := (cH - vh * min (cW / vw) (cH / vh)) / 2
    , w := vw * min (cW / vw) (cH / vh)
    , h := vh * min (cW / vw) (cH / vh)
    , containerW := cW, containerH := cH } with hroi
  have hscale : containScale roi vw vh = min (cW / vw) (cH / vh) := by
    rw [containScale]
  have hspos : 0 < containScale roi vw vh := by
    rw [hscale]
    exact lt_min (div_pos hcW hvwQ) (div_pos hcH hvhQ)
  have hsne : containScale roi vw vh ≠ 0 := ne_of_gt hspos
  have hX : clampX roi vw vh = 0 := by
    rw [clampX, offsetX]
    have hnum : roi.x - (roi.containerW - vw * containScale roi vw vh) / 2 = 0 := by
      rw [hscale]; simp [hroi]
    rw [hnum, zero_div]
    rw [min_eq_right (le_of_lt hvwQ), max_self]
  have hY : clampY roi vw vh = 0 := by
    rw [clampY, offsetY]
    have hnum : roi.y - (roi.containerH - vh * containScale roi vw vh) / 2 = 0 := by
      rw [hscale]; simp [hroi]
    rw [hnum, zero_div]
    rw [min_eq_right (le_of_lt hvhQ), max_self]
  have hW : clampW roi vw vh = vw := by
    rw [clampW, hX]
    have hw : roi.w / containScale roi vw vh = vw := by
      rw [hscale]
      simp only [hroi]
      rw [mul_div_assoc]
      rw [div_self (by rw [← hscale]; exact hsne), mul_one]
    rw [hw, sub_zero, min_self]
    exact max_eq_right (by exact_mod_cast hvw)
  have hH : clampH roi vw vh = vh := by
    rw [clampH, hY]
    have hh : roi.h / containScale roi vw vh = vh := by
      rw [hscale]
      simp only [hroi]
      rw [mul_div_assoc]
      rw [div_self (by rw [← hscale]; exact hsne), mul_one]
    rw [hh, sub_zero, min_self]
    exact max_eq_right (by exact_mod_cast hvh)
  rw [guideToVideoRect, if_neg hne, hX, hY, hW, hH, jsRound_zero,
    jsRound_natCast, jsRound_natCast]

theorem guide_at_video_bounds_maps_to_full_witness :
    guideToVideoRect
      { x := ((4 : ℚ) - ((2 : ℕ) : ℚ) * min ((4 : ℚ) / ((2 : ℕ) : ℚ)) ((4 : ℚ) / ((2 : ℕ) : ℚ))) / 2
      , y := ((4 : ℚ) - ((2 : ℕ) : ℚ) * min ((4 : ℚ) / ((2 : ℕ) : ℚ)) ((4 : ℚ) / ((2 : ℕ) : ℚ))) / 2
      , w := ((2 : ℕ) : ℚ) * min ((4 : ℚ) / ((2 : ℕ) : ℚ)) ((4 : ℚ) / ((2 : ℕ) : ℚ))
      , h := ((2 : ℕ) : ℚ) * min ((4 : ℚ) / ((2 : ℕ) : ℚ)) ((4 : ℚ) / ((2 : ℕ) : ℚ))
      , containerW := 4, containerH := 4 } 2 2
      = some { x := 0, y := 0, w := ((2 : ℕ) : ℤ), h := ((2 : ℕ) : ℤ) } :=
  guide_at_video_bounds_maps_to_full 2 2 4 4 (by norm_num) (by norm_num) (by norm_num)
    (by norm_num)

/-! ## Quality metrics (`analyzeRoi`)

The analysis operates on the `gray` luma buffer (8-bit samples, produced
upstream from the RGBA data by the BT.601 conversion).  `Float32Array`
arithmetic is idealised as exact rationals. -/

/-- A single-channel luma buffer: `width`, `height` and the sample at each
coordinate (the `gray` array of `analyzeRoi`, stored as `gray[y*width+x]`). -/
structure Luma where
  w : ℕ
  h : ℕ
  pix : ℕ → ℕ → ℕ

/-- Index set of all `width*height` entries of the per-pixel arrays. -/
def allIdx (w h : ℕ) : Finset (ℕ × ℕ) := Finset.range w ×ˢ Finset.range h

/-- Index set scanned by the convolution loops: `x` from `1` to `width-2`,
`y` from `1` to `height-2` (pairs are `(x, y)`). -/
def interiorIdx (w h : ℕ) : Finset (ℕ × ℕ) :=
  Finset.Ico 1 (w - 1) ×ˢ Finset.Ico 1 (h - 1)

/-- Laplacian response with kernel `k = [0,1,0,1,-4,1,0,1,0]` at an interior
pixel. -/
def lapAt (g : Luma) (x y : ℕ) : ℤ :=
  0 * g.pix (x-1) (y-1) + 1 * g.pix x (y-1) + 0 * g.pix (x+1) (y-1) +
  1 * g.pix (x-1) y + (-4) * g.pix x y + 1 * g.pix (x+1) y +
  0 * g.pix (x-1) (y+1) + 1 * g.pix x (y+1) + 0 * g.pix (x+1) (y+1)

/-- The `lap` Float32Array: the Laplacian response at interior pixels, and the
zero initialisation value everywhere else (the border is never written). -/
def lapMap (g : Luma) (x y : ℕ) : ℚ :=
  if 1 ≤ x ∧ x + 1 < g.w ∧ 1 ≤ y ∧ y + 1 < g.h then (lapAt g x y : ℚ) else 0

/-- The divisor `N = (width - 2) * (height - 2) || 1`. -/
def lapN (g : Luma) : ℕ :=
  if (g.w - 2) * (g.h - 2) = 0 then 1 else (g.w - 2) * (g.h - 2)

/-- The interior mean of the Laplacian responses (`meanL += v` inside the
interior loop, then `meanL /= N`). -/
def meanL (g : Luma) : ℚ :=
  (∑ p ∈ interiorIdx g.w g.h, (lapAt g p.1 p.2 : ℚ)) / (lapN g : ℚ)

/-- The value `lapVar`: the source sums the squared deviation from `meanL` over every
entry of `lap` — the loop `for i < lap.length` runs over all `width*height`
entries, the zero-initialised border included — and divides by `N`. -/
def lapVar (g : Luma) : ℚ :=
  (∑ p ∈ allIdx g.w g.h, (lapMap g p.1 p.2 - meanL g) ^ 2) / (lapN g : ℚ)

/-- Sharpness as the spec words it: the population variance of the Laplacian
response map over exactly the `(W-2)*(H-2)` interior pixels — the interior mean
first, then the average squared deviation over those same interior responses.
Stated from the spec for comparison with `lapVar`; not a source translation. -/
def specInteriorVariance (g : Luma) : ℚ :=
  (∑ p ∈ interiorIdx g.w g.h,
      ((lapAt g p.1 p.2 : ℚ) -
        (∑ q ∈ interiorIdx g.w g.h, (lapAt g q.1 q.2 : ℚ))
          / (((g.w - 2) * (g.h - 2) : ℕ) : ℚ)) ^ 2)
    / (((g.w - 2) * (g.h - 2) : ℕ) : ℚ)

/-- The value `fillRatio`: the fraction of samples strictly brighter than 60. -/
def fillRatio (g : Luma) : ℚ :=
  ((∑ p ∈ allIdx g.w g.h, if 60 < g.pix p.1 p.2 then 1 else 0 : ℕ) : ℚ)
    / ((g.w * g.h : ℕ) : ℚ)

/-- Sobel `Gx` response with kernel `kx = [-1,0,1,-2,0,2,-1,0,1]`. -/
def sobelGx (g : Luma) (x y : ℕ) : ℤ :=
  (-1) * g.pix (x-1) (y-1) + 0 * g.pix x (y-1) + 1 * g.pix (x+1) (y-1) +
  (-2) * g.pix (x-1) y + 0 * g.pix x y + 2 * g.pix (x+1) y +
  (-1) * g.pix (x-1) (y+1) + 0 * g.pix x (y+1) + 1 * g.pix (x+1) (y+1)

/-- Sobel `Gy` response with kernel `ky = [-1,-2,-1,0,0,0,1,2,1]`. -/
def sobelGy (g : Luma) (x y : ℕ) : ℤ :=
  (-1) * g.pix (x-1) (y-1) + (-2) * g.pix x (y-1) + (-1) * g.pix (x+1) (y-1) +
  0 * g.pix (x-1) y + 0 * g.pix x y + 0 * g.pix (x+1) y +
  1 * g.pix (x-1) (y+1) + 2 * g.pix x (y+1) + 1 * g.pix (x+1) (y+1)

/-- The magnitude `mag = Math.abs(gx) + Math.abs(gy)`. -/
def sobelMag (g : Luma) (x y : ℕ) : ℚ :=
  ((|sobelGx g x y| + |sobelGy g x y| : ℤ) : ℚ)

/-- The `sobel` Float32Array: the gradient magnitude at interior pixels and
the zero initialisation value elsewhere. -/
def sobelMap (g : Luma) (x y : ℕ) : ℚ :=
  if 1 ≤ x ∧ x + 1 < g.w ∧ 1 ≤ y ∧ y + 1 < g.h then sobelMag g x y else 0

/-- Reading `sobel[y*w+x]` at the (possibly out-of-range, possibly negative)
indices produced by the band loops: a JS typed array yields `undefined` there
and `undefined > thr` is false, modelled by `none`. -/
def sobelGet (g : Luma) (x y : ℤ) : Option ℚ :=
  if 0 ≤ x ∧ x < (g.w : ℤ) ∧ 0 ≤ y ∧ y < (g.h : ℤ) then
    some (sobelMap g x.toNat y.toNat)
  else none

/-- The helper `countEdge(sobel, w, h, sx, sy, sw, sh, thr)`: how many positions of the
`sw × sh` window at `(sx, sy)` pass the threshold test `p`
(`if (sobel[row + x] > thr) c++`; out-of-range reads never count). -/
def countEdge (g : Luma) (sx sy sw sh : ℤ) (p : ℚ → Bool) : ℕ :=
  ∑ q ∈ Finset.Ico sy (sy + sh) ×ˢ Finset.Ico sx (sx + sw),
    (match sobelGet g q.2 q.1 with
     | some v => cond (p v) 1 0
     | none => 0)

/-- The band thickness `band = Math.max(1, Math.round(edgeBandFrac * Math.min(width, height)))`. -/
def bandOf (frac : ℚ) (w h : ℕ) : ℕ :=
  max 1 (jsRound (frac * ((min w h : ℕ) : ℚ))).toNat

/-- The interior traversal order of the Sobel loop (`y` outer from `1` to
`h-2`, `x` inner from `1` to `w-2`). -/
def interiorList (w h : ℕ) : List (ℕ × ℕ) :=
  (List.range' 1 (h - 2)).flatMap fun y => (List.range' 1 (w - 2)).map fun x => (x, y)

/-- Fixed-threshold variant (`part_001`): `let maxMag = 1` and then
`if (mag > maxMag) maxMag = mag` inside the interior loop — a running maximum
with initial value 1. -/
def maxMag (g : Luma) : ℚ :=
  ((interiorList g.w g.h).map fun p => sobelMag g p.1 p.2).foldl max 1

/-- Fixed-threshold variant: `thr = 0.25 * maxMag`. -/
def thrFixed (g : Luma) : ℚ := (1/4) * maxMag g

/-- Fixed-threshold variant, `topR = topCount / (width * band)`. -/
def topR1 (g : Luma) (frac : ℚ) : ℚ :=
  (countEdge g 0 0 (g.w : ℤ) (bandOf frac g.w g.h : ℤ)
      (fun v => decide (thrFixed g < v)) : ℚ)
    / ((g.w * bandOf frac g.w g.h : ℕ) : ℚ)

/-- Fixed-threshold variant, `botR = botCount / (width * band)` with the band
at `y = height - band`. -/
def botR1 (g : Luma) (frac : ℚ) : ℚ :=
  (countEdge g 0 ((g.h : ℤ) - (bandOf frac g.w g.h : ℤ)) (g.w : ℤ)
      (bandOf frac g.w g.h : ℤ) (fun v => decide (thrFixed g < v)) : ℚ)
    / ((g.w * bandOf frac g.w g.h : ℕ) : ℚ)

/-- Fixed-threshold variant, `leftR = leftCount / (height * band)`. -/
def leftR1 (g : Luma) (frac : ℚ) : ℚ :=
  (countEdge g 0 0 (bandOf frac g.w g.h : ℤ) (g.h : ℤ)
      (fun v => decide (thrFixed g < v)) : ℚ)
    / ((g.h * bandOf frac g.w g.h : ℕ) : ℚ)

/-- Fixed-threshold variant, `rightR = rightCount / (height * band)` with the
band at `x = width - band`. -/
def rightR1 (g : Luma) (frac : ℚ) : ℚ :=
  (countEdge g ((g.w : ℤ) - (bandOf frac g.w g.h : ℤ)) 0
      (bandOf frac g.w g.h : ℤ) (g.h : ℤ) (fun v => decide (thrFixed g < v)) : ℚ)
    / ((g.h * bandOf frac g.w g.h : ℕ) : ℚ)

/-- Dynamic-threshold variant (PassportAutoCapture.tsx): `sum` over all
`sobel.length = w*h` entries. -/
def sobelSum (g : Luma) : ℚ := ∑ p ∈ allIdx g.w g.h, sobelMap g p.1 p.2

/-- Dynamic-threshold variant: `sum2` over all entries. -/
def sobelSum2 (g : Luma) : ℚ := ∑ p ∈ allIdx g.w g.h, (sobelMap g p.1 p.2) ^ 2

/-- The mean `mean = sum / sobel.length`. -/
def sobelMean (g : Luma) : ℚ := sobelSum g / ((g.w * g.h : ℕ) : ℚ)

/-- The argument of `Math.sqrt` in `std = Math.sqrt(Math.max(0, sum2/len -
mean*mean))`. -/
def sobelVar (g : Luma) : ℚ :=
  max 0 (sobelSum2 g / ((g.w * g.h : ℕ) : ℚ) - sobelMean g ^ 2)

/-- The dynamic-threshold test `v > thr` with `thr = mean + 1.2 * std` and
`std = Math.sqrt(sobelVar)`.  Encoded on squares to stay inside `ℚ`: since
`sobelVar ≥ 0`, `v > mean + 1.2 * sqrt sobelVar` holds iff `v > mean` and
`(v - mean)^2 > 1.44 * sobelVar` (`1.44 = 1.2^2 = 36/25`); see
`dynPass_iff_sqrt`. -/
def dynPass (g : Luma) (v : ℚ) : Bool :=
  decide (sobelMean g < v) && decide ((36/25) * sobelVar g < (v - sobelMean g) ^ 2)

/-- Dynamic-threshold variant, `topR`. -/
def topRD (g : Luma) (frac : ℚ) : ℚ :=
  (countEdge g 0 0 (g.w : ℤ) (bandOf frac g.w g.h : ℤ) (dynPass g) : ℚ)
    / ((g.w * bandOf frac g.w g.h : ℕ) : ℚ)

/-- Dynamic-threshold variant, `botR`. -/
def botRD (g : Luma) (frac : ℚ) : ℚ :=
  (countEdge g 0 ((g.h : ℤ) - (bandOf frac g.w g.h : ℤ)) (g.w : ℤ)
      (bandOf frac g.w g.h : ℤ) (dynPass g) : ℚ)
    / ((g.w * bandOf frac g.w g.h : ℕ) : ℚ)

/-- Dynamic-threshold variant, `leftR`. -/
def leftRD (g : Luma) (frac : ℚ) : ℚ :=
  (countEdge g 0 0 (bandOf frac g.w g.h : ℤ) (g.h : ℤ) (dynPass g) : ℚ)
    / ((g.h * bandOf frac g.w g.h : ℕ) : ℚ)

/-- Dynamic-threshold variant, `rightR`. -/
def rightRD (g : Luma) (frac : ℚ) : ℚ :=
  (countEdge g ((g.w : ℤ) - (bandOf frac g.w g.h : ℤ)) 0
      (bandOf frac g.w g.h : ℤ) (g.h : ℤ) (dynPass g) : ℚ)
    / ((g.h * bandOf frac g.w g.h : ℕ) : ℚ)

/-- Justification of the rational encoding of the dynamic threshold:
`dynPass` agrees with the real-valued comparison
`v > mean + 1.2 * sqrt (max 0 (sum2/len - mean^2))` of the source. -/
lemma dynPass_iff_sqrt (g : Luma) (v : ℚ) :
    dynPass g v = true ↔
      (sobelMean g : ℝ) + (6/5) * Real.sqrt (sobelVar g) < (v : ℝ) := by
  have hV : (0 : ℚ) ≤ sobelVar g := le_max_left _ _
  have hVR : (0 : ℝ) ≤ (sobelVar g : ℝ) := by exact_mod_cast hV
  have hs0 : 0 ≤ Real.sqrt (sobelVar g) := Real.sqrt_nonneg _
  have hs2 : Real.sqrt (sobelVar g) ^ 2 = (sobelVar g : ℝ) := Real.sq_sqrt hVR
  rw [dynPass, Bool.and_eq_true, decide_eq_true_eq, decide_eq_true_eq]
  constructor
  · rintro ⟨h1, h2⟩
    rify at h1 h2
    nlinarith [hs0, hs2, h1, h2]
  · intro h
    constructor
    · rify
      nlinarith [hs0]
    · rify
      nlinarith [hs0, hs2]

/-- A 3x3 luma buffer whose centre sample is 0 and whose eight surrounding
samples are 1; its single interior Laplacian response is 4. -/
def lumaCex : Luma := ⟨3, 3, fun x y => if x = 1 ∧ y = 1 then 0 else 1⟩

/-- C4 (counterexample): on `lumaCex` the implementation yields `lapVar = 128`
(the eight zero border entries each contribute `(0 - 4)^2 = 16` to the
squared-deviation sum), while the population variance over exactly the
interior pixels is `0`; the claimed equality fails. -/
theorem sharpness_not_interior_variance_cex :
    lapVar lumaCex = 128 ∧ specInteriorVariance lumaCex = 0 ∧ (128 : ℚ) ≠ 0 := by
  refine ⟨?_, ?_, by norm_num⟩
  · norm_num [lapVar, meanL, allIdx, interiorIdx, lumaCex, lapAt, lapMap, lapN,
      Finset.sum_product, Finset.sum_range_succ, Finset.sum_Ico_eq_sum_range]
  · norm_num [specInteriorVariance, interiorIdx, lumaCex, lapAt,
      Finset.sum_product, Finset.sum_Ico_eq_sum_range]

/-- C4 (amended): for `W > 2` and `H > 2` the sharpness value equals the
interior population variance plus a border correction: the squared-deviation
sum also ranges over the `W*H - (W-2)*(H-2)` zero entries on the buffer's
border, each contributing the squared interior mean, and is divided by the
interior count `(W-2)*(H-2)`. -/
theorem lapVar_eq_interior_variance_add_border (g : Luma) (hw : 2 < g.w) (hh : 2 < g.h) :
    lapVar g = specInteriorVariance g
      + ((g.w * g.h - (g.w - 2) * (g.h - 2) : ℕ) : ℚ) * meanL g ^ 2
        / (((g.w - 2) * (g.h - 2) : ℕ) : ℚ) := by
  have hn : (g.w - 2) * (g.h - 2) ≠ 0 := by
    have h0 : 0 < (g.w - 2) * (g.h - 2) := Nat.mul_pos (by omega) (by omega)
    omega
  have hlapN : lapN g = (g.w - 2) * (g.h - 2) := if_neg hn
  have hsub : interiorIdx g.w g.h ⊆ allIdx g.w g.h := by
    apply Finset.product_subset_product
    · intro x hx
      rw [Finset.mem_Ico] at hx
      rw [Finset.mem_range]
      omega
    · intro y hy
      rw [Finset.mem_Ico] at hy
      rw [Finset.mem_range]
      omega
  have hsplit := Finset.sum_sdiff
    (f := fun p : ℕ × ℕ => (lapMap g p.1 p.2 - meanL g) ^ 2) hsub
  have hzero : ∀ p ∈ allIdx g.w g.h \ interiorIdx g.w g.h, lapMap g p.1 p.2 = 0 := by
    intro p hp
    rw [Finset.mem_sdiff] at hp
    obtain ⟨hall, hnot⟩ := hp
    rw [lapMap, if_neg]
    intro hcond
    apply hnot
    rw [interiorIdx, Finset.mem_product, Finset.mem_Ico, Finset.mem_Ico]
    omega
  have hborder : (∑ p ∈ allIdx g.w g.h \ interiorIdx g.w g.h,
        (lapMap g p.1 p.2 - meanL g) ^ 2)
      = ((allIdx g.w g.h \ interiorIdx g.w g.h).card : ℚ) * meanL g ^ 2 := by
    rw [Finset.sum_congr rfl fun p hp => by rw [hzero p hp, zero_sub, neg_sq]]
    rw [Finset.sum_const, nsmul_eq_mul]
  have hcard : (allIdx g.w g.h \ interiorIdx g.w g.h).card
      = g.w * g.h - (g.w - 2) * (g.h - 2) := by
    rw [Finset.card_sdiff hsub, allIdx, interiorIdx, Finset.card_product,
      Finset.card_product, Finset.card_range, Finset.card_range,
      Nat.card_Ico, Nat.card_Ico]
    have h1 : g.w - 1 - 1 = g.w - 2 := by omega
    have h2 : g.h - 1 - 1 = g.h - 2 := by omega
    rw [h1, h2]
  have hint : (∑ p ∈ interiorIdx g.w g.h, (lapMap g p.1 p.2 - meanL g) ^ 2)
      = ∑ p ∈ interiorIdx g.w g.h, ((lapAt g p.1 p.2 : ℚ) - meanL g) ^ 2 := by
    apply Finset.sum_congr rfl
    intro p hp
    rw [interiorIdx, Finset.mem_product, Finset.mem_Ico, Finset.mem_Ico] at hp
    rw [lapMap, if_pos]
    omega
  have hmean : (∑ q ∈ interiorIdx g.w g.h, (lapAt g q.1 q.2 : ℚ))
      / (((g.w - 2) * (g.h - 2) : ℕ) : ℚ) = meanL g := by
    rw [meanL, hlapN]
  have hnQ : (((g.w - 2) * (g.h - 2) : ℕ) : ℚ) ≠ 0 := by
    exact_mod_cast hn
  rw [lapVar, specInteriorVariance, hmean, hlapN, ← hsplit, hborder, hcard, hint]
  field_simp
  ring

theorem lapVar_eq_interior_variance_add_border_witness :
    2 < lumaCex.w ∧
    lapVar lumaCex = specInteriorVariance lumaCex
      + ((lumaCex.w * lumaCex.h - (lumaCex.w - 2) * (lumaCex.h - 2) : ℕ) : ℚ)
          * meanL lumaCex ^ 2
        / (((lumaCex.w - 2) * (lumaCex.h - 2) : ℕ) : ℚ) :=
  ⟨by decide, lapVar_eq_interior_variance_add_border lumaCex (by decide) (by decide)⟩

/-- Folding `max` over a list of elements that are all at most the accumulator
leaves the accumulator unchanged. -/
lemma foldl_max_of_le (l : List ℚ) (a : ℚ) (h : ∀ v ∈ l, v ≤ a) :
    l.foldl max a = a := by
  induction l generalizing a with
  | nil => rfl
  | cons v l ih =>
    rw [List.foldl_cons, max_eq_left (h v (by simp))]
    exact ih a fun u hu => h u (by simp [hu])

lemma sobelGx_const (g : Luma) (c : ℕ) (hc : ∀ x y, g.pix x y = c) (x y : ℕ) :
    sobelGx g x y = 0 := by
  simp only [sobelGx, hc]
  ring

lemma sobelGy_const (g : Luma) (c : ℕ) (hc : ∀ x y, g.pix x y = c) (x y : ℕ) :
    sobelGy g x y = 0 := by
  simp only [sobelGy, hc]
  ring

lemma sobelMag_const (g : Luma) (c : ℕ) (hc : ∀ x y, g.pix x y = c) (x y : ℕ) :
    sobelMag g x y = 0 := by
  rw [sobelMag, sobelGx_const g c hc, sobelGy_const g c hc]
  norm_num

lemma sobelMap_const (g : Luma) (c : ℕ) (hc : ∀ x y, g.pix x y = c) (x y : ℕ) :
    sobelMap g x y = 0 := by
  rw [sobelMap]
  split
  · exact sobelMag_const g c hc x y
  · rfl

/-- If every entry of the Sobel map is zero and the threshold test rejects
zero, then no window counts any edge pixel. -/
lemma countEdge_eq_zero (g : Luma) (sx sy sw sh : ℤ) (p : ℚ → Bool)
    (hmap : ∀ x y, sobelMap g x y = 0) (hp : p 0 = false) :
    countEdge g sx sy sw sh p = 0 := by
  rw [countEdge]
  apply Finset.sum_eq_zero
  intro q hq
  rw [sobelGet]
  by_cases hin : 0 ≤ q.2 ∧ q.2 < (g.w : ℤ) ∧ 0 ≤ q.1 ∧ q.1 < (g.h : ℤ)
  · rw [if_pos hin]
    show cond (p (sobelMap g q.2.toNat q.1.toNat)) 1 0 = 0
    rw [hmap, hp]
    rfl
  · rw [if_neg hin]

/-- C10: on a constant luma buffer every Sobel magnitude is zero, so in the
fixed-fraction variant the running maximum stays at its floor 1 and the
threshold is the strictly positive `0.25`, while in the dynamic variant the
mean and the variance argument are 0 and the comparison is strict; in both
variants all four border-band edge ratios are exactly 0 (and the ratio
denominators are positive, so no division by zero is hidden). -/
theorem constant_luma_edge_ratios_zero (g : Luma) (c : ℕ) (frac : ℚ)
    (hc : ∀ x y, g.pix x y = c) (hw : 1 ≤ g.w) (hh : 1 ≤ g.h) :
    maxMag g = 1 ∧ thrFixed g = 1/4 ∧
    topR1 g frac = 0 ∧ botR1 g frac = 0 ∧ leftR1 g frac = 0 ∧ rightR1 g frac = 0 ∧
    sobelMean g = 0 ∧ sobelVar g = 0 ∧
    topRD g frac = 0 ∧ botRD g frac = 0 ∧ leftRD g frac = 0 ∧ rightRD g frac = 0 ∧
    0 < g.w * bandOf frac g.w g.h ∧ 0 < g.h * bandOf frac g.w g.h := by
  have hmap : ∀ x y, sobelMap g x y = 0 := sobelMap_const g c hc
  have hmax : maxMag g = 1 := by
    rw [maxMag]
    apply foldl_max_of_le
    intro v hv
    rw [List.mem_map] at hv
    obtain ⟨p, hp, hpv⟩ := hv
    rw [← hpv, sobelMag_const g c hc]
    norm_num
  have hthr : thrFixed g = 1/4 := by rw [thrFixed, hmax]; norm_num
  have hp1 : (fun v => decide (thrFixed g < v)) 0 = false := by
    simp only [hthr]
    norm_num
  have hmean : sobelMean g = 0 := by
    rw [sobelMean, sobelSum, Finset.sum_congr rfl fun p _ => hmap p.1 p.2]
    simp
  have hvar : sobelVar g = 0 := by
    rw [sobelVar, sobelSum2, Finset.sum_congr rfl fun p _ => by rw [hmap p.1 p.2]]
    simp [hmean]
  have hpD : dynPass g 0 = false := by
    rw [dynPass, hmean]
    norm_num
  refine ⟨hmax, hthr, ?_, ?_, ?_, ?_, hmean, hvar, ?_, ?_, ?_, ?_, ?_, ?_⟩
  · rw [topR1, countEdge_eq_zero g _ _ _ _ _ hmap hp1]; norm_num
  · rw [botR1, countEdge_eq_zero g _ _ _ _ _ hmap hp1]; norm_num
  · rw [leftR1, countEdge_eq_zero g _ _ _ _ _ hmap hp1]; norm_num
  · rw [rightR1, countEdge_eq_zero g _ _ _ _ _ hmap hp1]; norm_num
  · rw [topRD, countEdge_eq_zero g _ _ _ _ _ hmap hpD]; norm_num
  · rw [botRD, countEdge_eq_zero g _ _ _ _ _ hmap hpD]; norm_num
  · rw [leftRD, countEdge_eq_zero g _ _ _ _ _ hmap hpD]; norm_num
  · rw [rightRD, countEdge_eq_zero g _ _ _ _ _ hmap hpD]; norm_num
  · have hb : 1 ≤ bandOf frac g.w g.h := le_max_left _ _
    exact Nat.mul_pos (by omega) (by omega)
  · have hb : 1 ≤ bandOf frac g.w g.h := le_max_left _ _
    exact Nat.mul_pos (by omega) (by omega)

/-- A constant 3x3 luma buffer for the C10 witness. -/
def lumaConst : Luma := ⟨3, 3, fun _ _ => 7⟩

theorem constant_luma_edge_ratios_zero_witness :
    maxMag lumaConst = 1 ∧ thrFixed lumaConst = 1/4 ∧
    topR1 lumaConst (1/10) = 0 ∧ botR1 lumaConst (1/10) = 0 ∧
    leftR1 lumaConst (1/10) = 0 ∧ rightR1 lumaConst (1/10) = 0 ∧
    sobelMean lumaConst = 0 ∧ sobelVar lumaConst = 0 ∧
    topRD lumaConst (1/10) = 0 ∧ botRD lumaConst (1/10) = 0 ∧
    leftRD lumaConst (1/10) = 0 ∧ rightRD lumaConst (1/10) = 0 ∧
    0 < lumaConst.w * bandOf (1/10) lumaConst.w lumaConst.h ∧
    0 < lumaConst.h * bandOf (1/10) lumaConst.w lumaConst.h :=
  constant_luma_edge_ratios_zero lumaConst 7 (1/10) (fun _ _ => rfl)
    (by decide) (by decide)

/-! ## Decision state machine (`startLoop`)

The loop body is embedded as a transition function on the session state; the
asynchronous `.finally` completion of `captureAndSend` is a separate event, so
any interleaving of ticks with the in-flight completion can be analysed.

One point of the source needs care: `isCapturing` is React `useState` state,
and the running loop is a plain JS closure.  The mount effect calls the first
render's `startLoop` once, and `loop` re-schedules itself with
`requestAnimationFrame(loop)` — the same closure object forever.  A closure
over a per-render `const` can never observe a later render's value, so the
running loop reads the `isCapturing` it captured at creation — `false` —
permanently; `setIsCapturing(true)` updates React state (and the next render)
that the running loop never consults.  `loopTick` therefore takes the
closure-captured value as an explicit argument `cap`; the trace semantics
(`stepEv`, `run`, `triggerCount`) instantiate it with `false`, the value the
program actually runs with.  The live React `isCapturing` is still tracked in
the state (the trigger branch sets it, `.finally` clears it) so that claims
about "a capture in flight" can be stated. -/

/-- The resolved options: the source reads every field as
`opts.x ?? DEFAULT_OPTS.x`, so the loop always sees a defined value of each.
These seven fields are the complete `AutoCaptureOptions` surface. -/
structure Opts where
  consecutiveFrames : ℕ
  sharpnessMin : ℚ
  fillMin : ℚ
  motionMax : ℚ
  edgeBandFrac : ℚ
  edgeRatioMin : ℚ
  minSecondsBeforeCapture : ℚ

/-- The module-level constant `GUIDE_RATIO = 0.70` of the source (not an
option). -/
def guideRatio : ℚ := 7/10

/-- The mutable per-session state the loop touches: `stableCountRef`,
`isCapturing`, `prevFrameRef`, `readyVisual`. -/
structure LoopState where
  stableCount : ℕ
  isCapturing : Bool
  prevFrame : Option Luma
  readyVisual : Bool

/-- Session start: counter 0, not capturing, no previous frame. -/
def initState : LoopState :=
  { stableCount := 0, isCapturing := false, prevFrame := none, readyVisual := false }

/-- Flat read `gray[j]` of a row-major luma buffer. -/
def Luma.atFlat (g : Luma) (j : ℕ) : ℕ := g.pix (j % g.w) (j / g.w)

/-- Inter-frame motion: `let motion = 255`, replaced by the mean absolute
per-sample difference when a previous buffer of identical length exists. -/
def motionOf : Option Luma → Luma → ℚ
  | none, _ => 255
  | some prev, cur =>
    if prev.w * prev.h = cur.w * cur.h then
      ((∑ j ∈ Finset.range (cur.w * cur.h),
          |(cur.atFlat j : ℤ) - (prev.atFlat j : ℤ)| : ℤ) : ℚ)
        / ((cur.w * cur.h : ℕ) : ℚ)
    else 255

/-- The aspect test `Math.abs(ratio - GUIDE_RATIO) <= 0.08` with
`ratio = roiVid.w / roiVid.h`; both the target and the `0.08` tolerance are
literals in the source. -/
def ratioOk (r : PixelRegion) : Bool :=
  decide (|(r.w : ℚ) / (r.h : ℚ) - guideRatio| ≤ 8/100)

/-- Aspect configuration as §3 of the spec words it: `aspectTarget` and
`aspectTolerance` as externally supplied `GateConfig` fields.  Stated from the
spec for comparison; the source has no such options. -/
structure SpecAspectConfig where
  aspectTarget : ℚ
  aspectTolerance : ℚ

/-- The spec's aspect check: region width/height ratio within
`aspectTarget ± aspectTolerance`. -/
def specAspectCheck (cfg : SpecAspectConfig) (r : PixelRegion) : Bool :=
  decide (|(r.w : ℚ) / (r.h : ℚ) - cfg.aspectTarget| ≤ cfg.aspectTolerance)

/-- The six pass/fail checks and their conjunction `allPass` (source lines
276-285): sharpness, fill, motion, the four edge-band ratios of the
dynamic-threshold variant, the aspect check and the elapsed-time check. -/
def allPassOf (o : Opts) (motion : ℚ) (g : Luma) (roiVid : PixelRegion)
    (elapsed : ℚ) : Bool :=
  decide (o.sharpnessMin ≤ lapVar g) &&
  decide (o.fillMin ≤ fillRatio g) &&
  decide (motion ≤ o.motionMax) &&
  (decide (o.edgeRatioMin ≤ topRD g o.edgeBandFrac) &&
   decide (o.edgeRatioMin ≤ botRD g o.edgeBandFrac) &&
   decide (o.edgeRatioMin ≤ leftRD g o.edgeBandFrac) &&
   decide (o.edgeRatioMin ≤ rightRD g o.edgeBandFrac)) &&
  ratioOk roiVid &&
  decide (o.minSecondsBeforeCapture ≤ elapsed)

/-- What the environment supplies to one tick: the video element with its
native dimensions (`none` while absent), the measured guide rectangle (`none`
while not measurable), the downsampled ROI luma read back from the work
canvas, and the elapsed seconds since session start. -/
structure TickEnv where
  video : Option (ℕ × ℕ)
  guide : Option RoiInView
  img : Luma
  elapsed : ℚ

/-- The guard chain at the top of the loop: `!videoRef.current`,
`!video.videoWidth || !video.videoHeight`, `computeRoiRect()` returning null,
`guideToVideoRect` returning null; yields the mapped region when every guard
passes. -/
def analyzedRegion (env : TickEnv) : Option PixelRegion :=
  match env.video with
  | none => none
  | some (vw, vh) =>
    if vw = 0 ∨ vh = 0 then none
    else
      match env.guide with
      | none => none
      | some roi => guideToVideoRect roi vw vh

/-- One iteration of `loop` (source lines 237-311): early return on any failed
guard; otherwise compute motion against the retained previous buffer, replace
it, evaluate `allPass`, and run the counter/trigger logic.  `cap` is the
`isCapturing` value the running closure captured when it was created — the
guard reads `pass && !cap`, NOT the live state: the rAF chain re-schedules the
mount-time closure forever, so the program runs with `cap = false` and
`setIsCapturing(true)` never reaches the guard.  The returned `Bool` reports
whether this tick entered the capture path (`setIsCapturing(true)` on the live
state and the `captureAndSend` call); the asynchronous completion is the
separate `captureFinally` event. -/
def loopTick (o : Opts) (cap : Bool) (s : LoopState) (env : TickEnv) :
    LoopState × Bool :=
  match analyzedRegion env with
  | none => (s, false)
  | some roiVid =>
    let motion := motionOf s.prevFrame env.img
    let pass := allPassOf o motion env.img roiVid env.elapsed
    if pass && !cap then
      if o.consecutiveFrames ≤ s.stableCount + 1 then
        ({ stableCount := s.stableCount + 1, isCapturing := true,
           prevFrame := some env.img, readyVisual := pass }, true)
      else
        ({ stableCount := s.stableCount + 1, isCapturing := s.isCapturing,
           prevFrame := some env.img, readyVisual := pass }, false)
    else
      ({ stableCount := 0, isCapturing := s.isCapturing,
         prevFrame := some env.img, readyVisual := pass }, false)

/-- The `.finally` callback of `captureAndSend(roiVid)`:
`setIsCapturing(false)`, `stableCountRef.current = 0`,
`setReadyVisual(false)`; runs exactly once per trigger, on success and on
failure alike. -/
def captureFinally (s : LoopState) : LoopState :=
  { stableCount := 0, isCapturing := false, prevFrame := s.prevFrame,
    readyVisual := false }

/-- Observable outcome of one capture trigger. -/
structure CaptureOutcome where
  artifacts : ℕ
  errorReports : ℕ
  after : LoopState

/-- Embeds `captureAndSend(roiVid).finally(...)`: on a successful encode the
`{blob, dataUrl}` payload is handed to `onCaptured` exactly once; on a failed
encode the promise rejects with no catch handler anywhere in the component, so
nothing reaches the consumer and nothing is surfaced to the caller (the
component's `error` state is written only by camera initialisation) — zero
error reports in both cases; the `finally` callback then resets the gate
state. -/
def runCapture (encodeOk : Bool) (s : LoopState) : CaptureOutcome :=
  { artifacts := if encodeOk then 1 else 0
    errorReports := 0
    after := captureFinally s }

/-- The events a session interleaves: animation-frame ticks and the completion
callback of an in-flight capture. -/
inductive Ev
  | tick (env : TickEnv)
  | done

/-- Apply one event to the session state.  Ticks run the closure the mount
effect scheduled, whose captured `isCapturing` is `false`. -/
def stepEv (o : Opts) (s : LoopState) : Ev → LoopState
  | Ev.tick env => (loopTick o false s env).1
  | Ev.done => captureFinally s

/-- Run a session trace from the initial state. -/
def run (o : Opts) (evs : List Ev) : LoopState :=
  evs.foldl (stepEv o) initState

/-- Number of capture triggers fired along a list of events (again with the
running closure's captured `isCapturing = false`). -/
def triggerCount (o : Opts) : LoopState → List Ev → ℕ
  | _, [] => 0
  | s, Ev.tick env :: r =>
    cond (loopTick o false s env).2 1 0 + triggerCount o (loopTick o false s env).1 r
  | s, Ev.done :: r => triggerCount o (captureFinally s) r

/-! ### State machine lemmas -/

/-- A tick increments the counter by at most one. -/
lemma loopTick_count_le (o : Opts) (cap : Bool) (s : LoopState) (env : TickEnv) :
    (loopTick o cap s env).1.stableCount ≤ s.stableCount + 1 := by
  cases hr : analyzedRegion env with
  | none =>
    rw [loopTick, hr]
    exact Nat.le_succ s.stableCount
  | some roiVid =>
    rw [loopTick, hr]
    dsimp only
    split
    · split
      · dsimp only
        omega
      · dsimp only
        omega
    · dsimp only
      omega

/-- Characterisation of the trigger: it fires exactly on an analyzed all-pass
tick whose incremented counter meets the requirement, provided the
closure-captured `isCapturing` is false — which for the running program it
always is; the live capturing state plays no role. -/
lemma loopTick_trigger_iff (o : Opts) (cap : Bool) (s : LoopState) (env : TickEnv) :
    (loopTick o cap s env).2 = true ↔
      ∃ roiVid, analyzedRegion env = some roiVid ∧
        allPassOf o (motionOf s.prevFrame env.img) env.img roiVid env.elapsed = true ∧
        cap = false ∧ o.consecutiveFrames ≤ s.stableCount + 1 := by
  cases hr : analyzedRegion env with
  | none =>
    rw [loopTick, hr]
    simp
  | some roiVid =>
    rw [loopTick, hr]
    dsimp only
    constructor
    · intro h
      split at h
      case isTrue hb =>
        rw [Bool.and_eq_true, Bool.not_eq_true'] at hb
        split at h
        case isTrue hcnt => exact ⟨roiVid, rfl, hb.1, hb.2, hcnt⟩
        case isFalse hcnt => simp at h
      case isFalse hb => simp at h
    · rintro ⟨roiVid2, hsome, hpass, hcap, hcnt⟩
      rw [Option.some.injEq] at hsome
      subst hsome
      rw [if_pos (by rw [Bool.and_eq_true, Bool.not_eq_true']; exact ⟨hpass, hcap⟩),
        if_pos hcnt]

/-- A trigger tick sets the live capturing state (`setIsCapturing(true)`). -/
lemma loopTick_trigger_capturing (o : Opts) (cap : Bool) (s : LoopState) (env : TickEnv)
    (h : (loopTick o cap s env).2 = true) :
    (loopTick o cap s env).1.isCapturing = true := by
  cases hr : analyzedRegion env with
  | none =>
    rw [loopTick, hr] at h
    simp at h
  | some roiVid =>
    rw [loopTick, hr] at h ⊢
    dsimp only at h ⊢
    split at h
    case isTrue hb =>
      split at h
      case isTrue hcnt =>
        rw [if_pos hb, if_pos hcnt]
      case isFalse hcnt => simp at h
    case isFalse hb => simp at h

/-- The live capturing flag, once set, stays set across ticks (only the
completion event clears it); a tick during flight does NOT thereby refrain
from triggering — the guard never consults the live flag. -/
lemma loopTick_capturing_preserved (o : Opts) (cap : Bool) (s : LoopState)
    (env : TickEnv) (hc : s.isCapturing = true) :
    (loopTick o cap s env).1.isCapturing = true := by
  cases hr : analyzedRegion env with
  | none =>
    rw [loopTick, hr]
    exact hc
  | some roiVid =>
    rw [loopTick, hr]
    dsimp only
    split
    · split
      · rfl
      · exact hc
    · exact hc

/-- An analyzed tick that fails `allPass` resets the counter and does not
trigger. -/
lemma loopTick_reset_of_fail (o : Opts) (cap : Bool) (s : LoopState) (env : TickEnv)
    (roiVid : PixelRegion) (hr : analyzedRegion env = some roiVid)
    (hp : allPassOf o (motionOf s.prevFrame env.img) env.img roiVid env.elapsed
      = false) :
    (loopTick o cap s env).1.stableCount = 0 ∧ (loopTick o cap s env).2 = false := by
  rw [loopTick, hr]
  dsimp only
  rw [if_neg (by rw [hp]; simp)]
  exact ⟨rfl, rfl⟩

/-- Fewer events than the remaining distance to the requirement can never
trigger. -/
lemma triggerCount_zero_of_short (o : Opts) (s : LoopState) (evs : List Ev)
    (hlen : s.stableCount + evs.length < o.consecutiveFrames) :
    triggerCount o s evs = 0 := by
  induction evs generalizing s with
  | nil => rfl
  | cons ev r ih =>
    cases ev with
    | done =>
      rw [triggerCount]
      apply ih
      rw [List.length_cons] at hlen
      simp only [captureFinally]
      omega
    | tick env =>
      rw [List.length_cons] at hlen
      have hnt : (loopTick o false s env).2 = false := by
        cases ht : (loopTick o false s env).2
        · rfl
        · obtain ⟨-, -, -, -, hcnt⟩ := (loopTick_trigger_iff o false s env).mp ht
          omega
      rw [triggerCount, hnt]
      have hle := loopTick_count_le o false s env
      rw [ih _ (by omega)]
      rfl

/-! ### Nonnegativity of the metric values (used to build passing witnesses) -/

lemma lapVar_nonneg (g : Luma) : 0 ≤ lapVar g :=
  div_nonneg (Finset.sum_nonneg fun p _ => sq_nonneg _) (Nat.cast_nonneg _)

lemma fillRatio_nonneg (g : Luma) : 0 ≤ fillRatio g :=
  div_nonneg (Nat.cast_nonneg _) (Nat.cast_nonneg _)

lemma topRD_nonneg (g : Luma) (frac : ℚ) : 0 ≤ topRD g frac :=
  div_nonneg (Nat.cast_nonneg _) (Nat.cast_nonneg _)

lemma botRD_nonneg (g : Luma) (frac : ℚ) : 0 ≤ botRD g frac :=
  div_nonneg (Nat.cast_nonneg _) (Nat.cast_nonneg _)

lemma leftRD_nonneg (g : Luma) (frac : ℚ) : 0 ≤ leftRD g frac :=
  div_nonneg (Nat.cast_nonneg _) (Nat.cast_nonneg _)

lemma rightRD_nonneg (g : Luma) (frac : ℚ) : 0 ≤ rightRD g frac :=
  div_nonneg (Nat.cast_nonneg _) (Nat.cast_nonneg _)

/-! ### The claims about the state machine -/

/-- Options for the C1 witness: requirement of one consecutive frame. -/
def oW1 : Opts :=
  { consecutiveFrames := 1, sharpnessMin := 0, fillMin := 0, motionMax := 0,
    edgeBandFrac := 0, edgeRatioMin := 0, minSecondsBeforeCapture := 0 }

/-- An unmeasurable tick environment (no video element mounted). -/
def envNone : TickEnv := { video := none, guide := none, img := lumaConst, elapsed := 0 }

/-- C3 (counterexample): on an extraction failure the component reports zero
extraction errors to the caller, not exactly one — `captureAndSend` has no
catch handler and the component's error state is only ever written during
camera initialisation, so the rejection stays unhandled. -/
theorem extraction_error_never_reported_cex :
    (runCapture false initState).errorReports = 0 ∧
    ¬ ((runCapture false initState).errorReports = 1) := by
  constructor
  · rfl
  · decide

/-- C3 (amended): if the capture extraction fails, no artifact is handed to
the capture consumer and the `.finally` callback still returns the machine to
the evaluating state — `isCapturing` false and `consecutivePassCount` 0, with
the retained previous frame untouched — so the session can retry; however no
extraction-fail error is reported to the caller (zero reports, the promise
rejection being unhandled), contrary to the claimed exactly-once report. -/
theorem extraction_failure_recovers (s : LoopState) :
    (runCapture false s).artifacts = 0 ∧
    (runCapture false s).errorReports = 0 ∧
    (runCapture false s).after.isCapturing = false ∧
    (runCapture false s).after.stableCount = 0 ∧
    (runCapture false s).after.prevFrame = s.prevFrame :=
  ⟨rfl, rfl, rfl, rfl, rfl⟩

/-- C5: on every analyzed tick where `allPass` is false the consecutive-pass
counter is set to 0 immediately, regardless of its prior value, and no capture
is triggered — for any closure-captured `isCapturing` value, in particular the
`false` the running program has. -/
theorem failing_tick_resets_counter (o : Opts) (cap : Bool) (s : LoopState)
    (env : TickEnv) (roiVid : PixelRegion)
    (hr : analyzedRegion env = some roiVid)
    (hp : allPassOf o (motionOf s.prevFrame env.img) env.img roiVid env.elapsed
      = false) :
    (loopTick o cap s env).1.stableCount = 0 ∧ (loopTick o cap s env).2 = false :=
  loopTick_reset_of_fail o cap s env roiVid hr hp

/-- Options for the failing witness: a warm-up requirement of one second that
a tick at `elapsed = 0` cannot meet. -/
def oWFail : Opts :=
  { consecutiveFrames := 1, sharpnessMin := 0, fillMin := 0, motionMax := 255,
    edgeBandFrac := 1/10, edgeRatioMin := 0, minSecondsBeforeCapture := 1 }

/-- A fully measurable tick environment: 10x10 source in a 10x10 container
with the guide at `{0, 0, 7, 10}` (ratio 0.7). -/
def envPass : TickEnv :=
  { video := some (10, 10)
  , guide := some { x := 0, y := 0, w := 7, h := 10, containerW := 10, containerH := 10 }
  , img := lumaConst, elapsed := 0 }

/-- The region `envPass` maps to. -/
def rgnPass : PixelRegion := { x := 0, y := 0, w := 7, h := 10 }

lemma analyzedRegion_envPass : analyzedRegion envPass = some rgnPass := by
  rw [analyzedRegion, envPass]
  norm_num [guideToVideoRect, clampX, clampY, clampW, clampH, offsetX, offsetY,
    containScale, jsRound, rgnPass]

/-- A mid-run state for the failing-tick witness. -/
def sFail : LoopState :=
  { stableCount := 5, isCapturing := false, prevFrame := none, readyVisual := true }

theorem failing_tick_resets_counter_witness :
    (loopTick oWFail false sFail envPass).1.stableCount = 0 ∧
    (loopTick oWFail false sFail envPass).2 = false :=
  failing_tick_resets_counter oWFail false sFail envPass rgnPass analyzedRegion_envPass
    (by
      rw [allPassOf]
      rw [show decide (oWFail.minSecondsBeforeCapture ≤ envPass.elapsed) = false from by
        rw [decide_eq_false_iff_not]
        norm_num [oWFail, envPass]]
      rw [Bool.and_false])

/-- C6 (counterexample): with the spec's configurable aspect check set to
`aspectTarget = 0.5` (tolerance 0.08), a region of ratio exactly 0.5 passes
the configured check but fails the code's check: the code compares against the
hard-coded `GUIDE_RATIO = 0.70` with the literal tolerance `0.08` and consults
no configuration field. -/
theorem aspect_check_not_configurable_cex :
    specAspectCheck { aspectTarget := 1/2, aspectTolerance := 8/100 }
        { x := 0, y := 0, w := 1, h := 2 } = true ∧
    ratioOk { x := 0, y := 0, w := 1, h := 2 } = false := by
  constructor
  · rw [specAspectCheck, decide_eq_true_eq]
    norm_num
  · rw [ratioOk, decide_eq_false_iff_not, guideRatio]
    norm_num
    rw [abs_of_nonneg (by norm_num)]
    norm_num

/-- C6 (amended): the aspect check compares the mapped region's width/height
ratio against the hard-coded module constant `GUIDE_RATIO = 0.70` within the
hard-coded tolerance `0.08`; it coincides with the spec's configurable check
exactly at those constants (and `AutoCaptureOptions` carries no aspect
fields at all). -/
theorem aspect_check_hardcoded (r : PixelRegion) :
    ratioOk r = specAspectCheck { aspectTarget := 7/10, aspectTolerance := 8/100 } r ∧
    (ratioOk r = true ↔ |(r.w : ℚ) / (r.h : ℚ) - 7/10| ≤ 8/100) := by
  refine ⟨rfl, ?_⟩
  rw [ratioOk, guideRatio, decide_eq_true_eq]

/-- C7: a tick on which the video element is absent, its dimensions are zero,
or the guide rectangle is not measurable is a no-op for the gate state: the
counter is neither incremented nor reset, the retained previous luma buffer is
not replaced, the visual flag is untouched, and no capture is triggered
(unlike a failing metric tick, which does reset the counter). -/
theorem unmeasurable_tick_is_noop (o : Opts) (cap : Bool) (s : LoopState)
    (env : TickEnv)
    (h : env.video = none ∨
      (∃ vw vh, env.video = some (vw, vh) ∧ (vw = 0 ∨ vh = 0)) ∨
      env.guide = none) :
    loopTick o cap s env = (s, false) := by
  have hr : analyzedRegion env = none := by
    rcases h with h | ⟨vw, vh, hv, hz⟩ | h
    · rw [analyzedRegion, h]
    · rw [analyzedRegion, hv]
      dsimp only
      rw [if_pos hz]
    · rw [analyzedRegion]
      cases hv : env.video with
      | none => rfl
      | some p =>
        dsimp only
        split
        · rfl
        · rw [h]
  rw [loopTick, hr]

theorem unmeasurable_tick_is_noop_witness :
    loopTick oW1 false initState envNone = (initState, false) :=
  unmeasurable_tick_is_noop oW1 false initState envNone (Or.inl rfl)

/-- Options used by the passing witnesses and the refutations: thresholds
every metric of a constant frame meets, requirement of one frame. -/
def oWPass : Opts :=
  { consecutiveFrames := 1, sharpnessMin := 0, fillMin := 0, motionMax := 255,
    edgeBandFrac := 1/10, edgeRatioMin := 0, minSecondsBeforeCapture := 0 }

/-- The same thresholds with a requirement of eight frames. -/
def oW8 : Opts :=
  { consecutiveFrames := 8, sharpnessMin := 0, fillMin := 0, motionMax := 255,
    edgeBandFrac := 1/10, edgeRatioMin := 0, minSecondsBeforeCapture := 0 }

/-- A state with a capture in flight (live `isCapturing = true`). -/
def sCap : LoopState :=
  { stableCount := 5, isCapturing := true, prevFrame := none, readyVisual := true }

/-- Any options whose thresholds are permissive enough accept the `envPass`
tick, for any motion value within the motion bound. -/
lemma allPass_envPass_of (o : Opts) (m : ℚ)
    (h1 : o.sharpnessMin ≤ 0) (h2 : o.fillMin ≤ 0) (h3 : m ≤ o.motionMax)
    (h4 : o.edgeRatioMin ≤ 0) (h5 : o.minSecondsBeforeCapture ≤ 0) :
    allPassOf o m envPass.img rgnPass envPass.elapsed = true := by
  rw [allPassOf]
  simp only [Bool.and_eq_true, decide_eq_true_eq]
  refine ⟨⟨⟨⟨⟨?_, ?_⟩, ?_⟩, ⟨⟨⟨?_, ?_⟩, ?_⟩, ?_⟩⟩, ?_⟩, ?_⟩
  · exact le_trans h1 (lapVar_nonneg _)
  · exact le_trans h2 (fillRatio_nonneg _)
  · exact h3
  · exact le_trans h4 (topRD_nonneg _ _)
  · exact le_trans h4 (botRD_nonneg _ _)
  · exact le_trans h4 (leftRD_nonneg _ _)
  · exact le_trans h4 (rightRD_nonneg _ _)
  · rw [ratioOk, decide_eq_true_eq, guideRatio, rgnPass]
    norm_num
  · exact h5

lemma allPass_envPass :
    allPassOf oWPass (motionOf sCap.prevFrame envPass.img) envPass.img rgnPass
      envPass.elapsed = true :=
  allPass_envPass_of oWPass _ (by norm_num [oWPass]) (by norm_num [oWPass])
    (le_of_eq rfl) (by norm_num [oWPass]) (by norm_num [oWPass])

lemma allPass_envPass_oW8 :
    allPassOf oW8 (motionOf sCap.prevFrame envPass.img) envPass.img rgnPass
      envPass.elapsed = true :=
  allPass_envPass_of oW8 _ (by norm_num [oW8]) (by norm_num [oW8])
    (le_of_eq rfl) (by norm_num [oW8]) (by norm_num [oW8])

/-- The motion of a constant frame against the identical retained frame is 0. -/
lemma motion_const_zero : motionOf (some lumaConst) lumaConst = 0 := by
  simp only [motionOf]
  norm_num [lumaConst, Luma.atFlat, Finset.sum_range_succ]

/-- C9 (counterexample): from a state with a capture in flight (live
`isCapturing = true`, counter 5) an all-pass tick INCREMENTS the counter to 6
instead of resetting it to 0: the guard reads the closure-captured
`isCapturing = false` of the running loop, never the live state. -/
theorem passing_tick_during_capture_resets_cex :
    sCap.isCapturing = true ∧
    (loopTick oW8 false sCap envPass).1.stableCount = 6 ∧
    ¬ ((6 : ℕ) = 0) := by
  refine ⟨rfl, ?_, by decide⟩
  rw [loopTick, analyzedRegion_envPass]
  dsimp only
  rw [allPass_envPass_oW8]
  norm_num [oW8, sCap]

/-- C9 (amended): on an analyzed tick whose metrics all pass while a capture
is in flight, the consecutive-pass counter is INCREMENTED, not reset: the
running loop closure reads the `isCapturing = false` it captured at mount,
never the live `true`, so a passing frame during capture counts toward the
next trigger, and such a tick triggers exactly when the incremented counter
meets `consecutiveFrames` (even with a capture in flight).  Only the capture
completion resets the counter to 0, and from a completed capture fewer than
`consecutiveFrames` further events can never trigger. -/
theorem passing_tick_during_capture_increments (o : Opts) (s : LoopState)
    (env : TickEnv) (roiVid : PixelRegion)
    (hr : analyzedRegion env = some roiVid)
    (hp : allPassOf o (motionOf s.prevFrame env.img) env.img roiVid env.elapsed
      = true)
    (hc : s.isCapturing = true)
    (tail : List Ev) (hlen : tail.length < o.consecutiveFrames) :
    (loopTick o false s env).1.stableCount = s.stableCount + 1 ∧
    ((loopTick o false s env).2 = true ↔
      o.consecutiveFrames ≤ s.stableCount + 1) ∧
    (captureFinally s).stableCount = 0 ∧
    triggerCount o (captureFinally s) tail = 0 := by
  have hstep : (loopTick o false s env).1.stableCount = s.stableCount + 1 ∧
      ((loopTick o false s env).2 = true ↔
        o.consecutiveFrames ≤ s.stableCount + 1) := by
    rw [loopTick, hr]
    dsimp only
    rw [hp]
    rw [if_pos (show (true && !false) = true from rfl)]
    split
    case isTrue hcnt =>
      exact ⟨rfl, by simp [hcnt]⟩
    case isFalse hcnt =>
      refine ⟨rfl, ?_⟩
      simp [hcnt]
  refine ⟨hstep.1, hstep.2, rfl, ?_⟩
  apply triggerCount_zero_of_short
  simpa [captureFinally] using hlen

theorem passing_tick_during_capture_increments_witness :
    (loopTick oWPass false sCap envPass).1.stableCount = sCap.stableCount + 1 ∧
    ((loopTick oWPass false sCap envPass).2 = true ↔
      oWPass.consecutiveFrames ≤ sCap.stableCount + 1) ∧
    (captureFinally sCap).stableCount = 0 ∧
    triggerCount oWPass (captureFinally sCap) [] = 0 :=
  passing_tick_during_capture_increments oWPass sCap envPass rgnPass
    analyzedRegion_envPass allPass_envPass rfl [] (by decide)

/-- C1 (refuted on the code): with `consecutiveFrames = 1`, two consecutive
all-pass ticks with NO completion event between them BOTH trigger
`captureAndSend`: the first trigger sets the live `isCapturing` state and
leaves the counter at 1 (it is reset only in the asynchronous `.finally`), yet
the second tick — whose guard reads the closure-captured `isCapturing = false`
of the running rAF loop, not the live `true` — triggers again while a capture
is in flight and without the counter ever having been reset; the trace of two
such ticks fires two triggers.  This violates the claimed properties "fires
exactly once per `consecutiveFramesRequired` consecutive passes", "never fires
twice without an intervening reset" and "never triggers while `isCapturing` is
true"; the spec states the intended guard, and the stale closure over the
React state is the slip in the code. -/
theorem stale_closure_double_trigger :
    (loopTick oWPass false initState envPass).2 = true ∧
    (loopTick oWPass false initState envPass).1.isCapturing = true ∧
    (loopTick oWPass false initState envPass).1.stableCount = 1 ∧
    (loopTick oWPass false (loopTick oWPass false initState envPass).1 envPass).2
      = true ∧
    triggerCount oWPass initState [Ev.tick envPass, Ev.tick envPass] = 2 := by
  have hpass1 : allPassOf oWPass (motionOf initState.prevFrame envPass.img)
      envPass.img rgnPass envPass.elapsed = true :=
    allPass_envPass_of oWPass _ (by norm_num [oWPass]) (by norm_num [oWPass])
      (le_of_eq rfl) (by norm_num [oWPass]) (by norm_num [oWPass])
  have hpass2 : allPassOf oWPass (motionOf (some envPass.img) envPass.img)
      envPass.img rgnPass envPass.elapsed = true := by
    apply allPass_envPass_of oWPass _ (by norm_num [oWPass]) (by norm_num [oWPass])
      ?_ (by norm_num [oWPass]) (by norm_num [oWPass])
    show motionOf (some lumaConst) lumaConst ≤ oWPass.motionMax
    rw [motion_const_zero]
    norm_num [oWPass]
  have hstep1 : loopTick oWPass false initState envPass
      = ({ stableCount := 1, isCapturing := true, prevFrame := some envPass.img,
           readyVisual := true }, true) := by
    rw [loopTick, analyzedRegion_envPass]
    dsimp only
    rw [hpass1]
    norm_num [initState, oWPass]
  have hstep2 : (loopTick oWPass false
      { stableCount := 1, isCapturing := true, prevFrame := some envPass.img,
        readyVisual := true } envPass).2 = true := by
    rw [loopTick, analyzedRegion_envPass]
    dsimp only
    rw [hpass2]
    norm_num [oWPass]
  refine ⟨by rw [hstep1], by rw [hstep1], by rw [hstep1], ?_, ?_⟩
  · rw [hstep1]
    exact hstep2
  · rw [triggerCount, hstep1]
    dsimp only
    rw [triggerCount]
    rw [hstep2]
    rfl

end MrzCam
